import Mathlib

/-!
Shallow embedding of the `openshift-vsts` install task
(`src/oc-install.ts`, `InstallHandler`) together with the
`ConfigMap` patch-command builder, and theorems settling the
specification claims about them.

External libraries (Node's `path` module, `valid-url`, `node-fetch`,
the task-lib filesystem helpers and the archive extractor) are modelled
as explicit parameters or oracles; effects performed by the code are
recorded in an explicit trace.
-/

namespace OcVsts

/-- Modelled from the spec: `src/constants.ts` is not under `src/`; the
constant values follow the bundle-path shape `<os-dir>/<archive-name>`
named in the spec and exercised by the tests (`linux/oc.tar.gz`). -/
def LINUX : String := "linux"

/-- Modelled from the spec: macOS bundle directory from `constants.ts`. -/
def MACOSX : String := "macosx"

/-- Modelled from the spec: Windows bundle directory from `constants.ts`. -/
def WIN : String := "windows"

/-- Modelled from the spec: tarball archive name from `constants.ts`. -/
def OC_TAR_GZ : String := "oc.tar.gz"

/-- Modelled from the spec: zip archive name from `constants.ts`. -/
def OC_ZIP : String := "oc.zip"

/-- Modelled from the spec: the sentinel `latest` URL segment from
`constants.ts`. -/
def LATEST : String := "latest"

/-- The static lookup data loaded from the bundled `oc-utils.json`
resource: the two base URLs and the `oc<major.minor> -> latest patch`
table.  The JSON file is not under `src/`, so its contents is left
abstract: theorems quantify over it. -/
structure OcUtils where
  openshiftV3BaseUrl : String
  openshiftV4BaseUrl : String
  table : List (String × String)

/-- Property access `ocUtils[key]` on the parsed JSON object. -/
def OcUtils.lookup (u : OcUtils) (k : String) : Option String :=
  (u.table.find? (fun p => p.1 == k)).map Prod.snd

/-- `InstallHandler.getOcBundleByOS` (oc-install.ts, lines 180-203):
the switch over the OS identifier. -/
def getOcBundleByOS (osType : String) : Option String :=
  match osType with
  | "Linux" => some (LINUX ++ "/" ++ OC_TAR_GZ)
  | "Darwin" => some (MACOSX ++ "/" ++ OC_TAR_GZ)
  | "Windows_NT" => some (WIN ++ "/" ++ OC_ZIP)
  | _ => none

/-- Numeric value of a decimal digit string, as JS unary `+` computes it
on the digit-only match of the major-version regex. -/
def digitsToNat (ds : List Char) : Nat :=
  ds.foldl (fun n c => 10 * n + (c.toNat - 48)) 0

/-- The JS regex `\d+(?=\.)` applied by `exec`: the leftmost maximal
digit run that is immediately followed by a dot (the lookahead consumes
nothing).  A digit run not followed by a dot cannot match at any of its
positions, so the scan may continue one character at a time. -/
def execMajor : List Char → Option (List Char)
  | [] => none
  | c :: rest =>
    if c.isDigit then
      match (c :: rest).dropWhile Char.isDigit with
      | '.' :: _ => some ((c :: rest).takeWhile Char.isDigit)
      | _ => execMajor rest
    else execMajor rest

/-- The JS regex `\d+\.\d+(?=\.)*` applied by `exec`: the leftmost
occurrence of a maximal digit run, a dot, and a further nonempty maximal
digit run.  The trailing `(?=\.)*` is a repeated zero-width assertion
and never constrains the match. -/
def execMajorMinor : List Char → Option (List Char × List Char)
  | [] => none
  | c :: rest =>
    if c.isDigit then
      match (c :: rest).dropWhile Char.isDigit with
      | '.' :: rest2 =>
        match rest2.takeWhile Char.isDigit with
        | [] => execMajorMinor rest
        | ds => some ((c :: rest).takeWhile Char.isDigit, ds)
      | _ => execMajorMinor rest
    else execMajorMinor rest

/-- The leading-`v` strip (`version.startsWith('v') ? version.substr(1)`),
oc-install.ts lines 126-128. -/
def stripV (version : String) : String :=
  match version.data with
  | 'v' :: rest => String.mk rest
  | _ => version

/-- The `latest` branch of `ocBundleURL` (oc-install.ts lines 142-157):
extract `major.minor`, look `oc<major.minor>` up in the static table;
a missing or falsy (empty) entry fails. -/
def resolveLatestVersion (utils : OcUtils) (version : String) : Option String :=
  match execMajorMinor version.data with
  | none => none
  | some (a, b) =>
    match utils.lookup ("oc" ++ (String.mk a ++ "." ++ String.mk b)) with
    | none => none
    | some w => if w = "" then none else some w

/-- `InstallHandler.ocBundleURL` (oc-install.ts lines 118-178): reject an
empty version, strip a leading `v`, extract the major version, optionally
substitute the latest patch from the table, select the base URL by the
extracted major (3 or 4, anything else fails), and append the OS bundle
path. -/
def ocBundleURL (utils : OcUtils) (version osType : String) (latest : Bool) :
    Option String :=
  if version = "" then none
  else
    let v := stripV version
    match execMajor v.data with
    | none => none
    | some ds =>
      match (if latest then resolveLatestVersion utils v else some v) with
      | none => none
      | some ver =>
        let base? : Option String :=
          if digitsToNat ds = 3 then some utils.openshiftV3BaseUrl
          else if digitsToNat ds = 4 then some utils.openshiftV4BaseUrl
          else none
        match base? with
        | none => none
        | some base =>
          match getOcBundleByOS osType with
          | none => none
          | some b => some (base ++ "/" ++ ver ++ "/" ++ b)

/-- `InstallHandler.latestStable` (oc-install.ts lines 94-107). -/
def latestStable (utils : OcUtils) (osType : String) : Option String :=
  (getOcBundleByOS osType).map
    (fun b => utils.openshiftV4BaseUrl ++ "/" ++ LATEST ++ "/" ++ b)

/-- An observable side effect performed by the install flow: a
`tl.exist`/`fs.existsSync` filesystem check, a `tl.mkdirP`, the `curl`
download invocation, the `unzipArchive` call, the `fs.chmodSync`
permission change, the HTTP `HEAD` probe issued by `fetch`, and the
`downloadAndExtract` call made by `installOc`. -/
inductive Effect where
  | existCheck (p : String)
  | mkdir (p : String)
  | curl (url proxy dest : String)
  | unzip (archiveType archivePath dir : String)
  | chmod (p : String) (mode : String)
  | headProbe (url : String)
  | callDownload (url dir : String)
deriving DecidableEq, Repr

/-- The ambient filesystem, abstracted to the single observation the
code makes of it (`tl.exist`). -/
structure World where
  exist : String → Bool

/-- Outcome of `downloadAndExtract`: the promise rejects with a message,
resolves to `null`, or resolves to a path. -/
inductive DlRes where
  | rejected (msg : String)
  | resolvedNone
  | resolvedPath (p : String)
deriving DecidableEq, Repr

/-- JS `url.split('/')`: split at every slash, keeping empty segments. -/
def splitOnSlash : List Char → List (List Char)
  | [] => [[]]
  | c :: rest =>
    match splitOnSlash rest with
    | [] => [[]]
    | t :: ts => if c = '/' then [] :: t :: ts else (c :: t) :: ts

/-- Node's `path.extname`: the substring from the last dot of the (here
slash-free) name to its end; empty when there is no dot or the only dot
is the leading character. -/
def extname (s : String) : String :=
  let cs := s.data
  let afterLastDot := cs.reverse.takeWhile (fun c => c ≠ '.')
  if afterLastDot.length = cs.length then ""
  else if cs.length - afterLastDot.length - 1 = 0 then ""
  else String.mk ('.' :: afterLastDot.reverse)

/-- JS `String.replace(pat, '')` with a string pattern: remove the first
occurrence of `pat` (an empty pattern matches at the start and removes
nothing). -/
def removeFirst (s pat : List Char) : List Char :=
  match s with
  | [] => []
  | c :: rest =>
    if pat.isPrefixOf (c :: rest) then (c :: rest).drop pat.length
    else c :: removeFirst rest pat

/-- The archive-type computation of `downloadAndExtract` (oc-install.ts
lines 246-252): `path.extname`, with the two-suffix `.tar.gz` case
recognised by stripping the first extension and testing for `.tar`. -/
def archiveTypeOf (archive : String) : String :=
  let t := extname archive
  if extname (String.mk (removeFirst archive.data t.data)) = ".tar" then ".tar.gz"
  else t

/-- `InstallHandler.downloadAndExtract` (oc-install.ts lines 214-276),
as a function of the external path operations (`normalize`, `join`), the
filesystem transformers performed by the external download tool and the
archive extractor (`curlW`, `unzipW`), the inputs, and the initial
world.  Returns the outcome and the trace of effects in order. -/
def downloadAndExtract (normalize : String → String)
    (join : String → String → String) (curlW unzipW : World → World)
    (url downloadDir osType proxy : String) (w : World) :
    DlRes × List Effect :=
  if url = "" then (.resolvedNone, [])
  else
    let dir := normalize downloadDir
    if w.exist dir then
      let archive := String.mk ((splitOnSlash url.data).getLastD [])
      let archivePath := join dir archive
      let w1 := if w.exist archivePath then w else curlW w
      let tr1 :=
        if w.exist archivePath then
          [Effect.existCheck dir, Effect.existCheck archivePath]
        else
          [Effect.existCheck dir, Effect.existCheck archivePath,
           Effect.curl url proxy archivePath]
      let w2 := unzipW w1
      let tr2 := tr1 ++ [Effect.unzip (archiveTypeOf archive) archivePath dir]
      let ocBinary := join dir (if osType = "Windows_NT" then "oc.exe" else "oc")
      let tr3 := tr2 ++ [Effect.existCheck ocBinary]
      if w2.exist ocBinary then
        (.resolvedPath ocBinary, tr3 ++ [Effect.chmod ocBinary "0755"])
      else (.resolvedNone, tr3)
    else
      (.rejected (dir ++ " does not exist."), [Effect.existCheck dir])

/-- Outcome of `installOc`: the promise resolves to a path, rejects with
an `Error` message, or propagates the `TypeError` thrown by `fetch` when
it is handed a `null` URL. -/
inductive InstallRes where
  | ok (p : String)
  | rejected (msg : String)
  | threw
deriving DecidableEq, Repr

/-- The tail of `installOc` from the `url === null` check on
(oc-install.ts lines 71-86): reject on a missing URL, otherwise call
`downloadAndExtract` (modelled at its call boundary by the oracle `dl`),
rejecting when it resolves to `null` and propagating its rejection. -/
def installFinish (downloadDir : String) (dl : String → DlRes)
    (url? : Option String) (tr : List Effect) : InstallRes × List Effect :=
  match url? with
  | none => (.rejected "Unable to determine oc download URL.", tr)
  | some u =>
    match dl u with
    | .rejected m => (.rejected m, tr ++ [Effect.callDownload u downloadDir])
    | .resolvedNone =>
      (.rejected "Unable to download or extract oc binary.",
       tr ++ [Effect.callDownload u downloadDir])
    | .resolvedPath p => (.ok p, tr ++ [Effect.callDownload u downloadDir])

/-- `InstallHandler.installOc` (oc-install.ts lines 30-87).  External
collaborators are oracles: `isWebUri` (the `valid-url` library), `probe`
(whether the HTTP `HEAD` response for a URL is `ok`), `localOc` (the
result of `getLocalOcPath`), `downloadDirExists` (the `fs.existsSync`
check of the download directory) and `dl` (the `downloadAndExtract`
call).  When the candidate URL is `null`, `fetch` throws before any
network access. -/
def installOc (utils : OcUtils) (isWebUri probe : String → Bool)
    (localOc : Option String) (envWorkDir : String) (downloadDirExists : Bool)
    (dl : String → DlRes) (downloadVersion osType : String)
    (useLocalOc : Bool) : InstallRes × List Effect :=
  match (if useLocalOc then localOc else none) with
  | some p => (.ok p, [])
  | none =>
    match (if downloadVersion = "" then latestStable utils osType
           else some downloadVersion) with
    | none => (.rejected "Unable to determine latest oc download URL", [])
    | some dv =>
      let downloadDir := envWorkDir ++ "/.download"
      let tr0 := Effect.existCheck downloadDir ::
        (if downloadDirExists then [] else [Effect.mkdir downloadDir])
      if isWebUri dv then
        installFinish downloadDir dl (some dv) tr0
      else
        match ocBundleURL utils dv osType false with
        | none => (.threw, tr0)
        | some cand =>
          installFinish downloadDir dl
            (if probe cand then some cand else ocBundleURL utils dv osType true)
            (tr0 ++ [Effect.headProbe cand])

/-- Recogniser for HTTP `HEAD` probe effects. -/
def isProbe : Effect → Bool
  | .headProbe _ => true
  | _ => false

/-- Number of HTTP `HEAD` probes in a trace. -/
def countProbes (tr : List Effect) : Nat := tr.countP isProbe

/-- The URL of a `downloadAndExtract` call effect, if any. -/
def urlOfCall : Effect → Option String
  | .callDownload u _ => some u
  | _ => none

/-- The URLs handed to `downloadAndExtract`, in order. -/
def downloadUrls (tr : List Effect) : List String := tr.filterMap urlOfCall

/-- The double-quote character. -/
def dquote : Char := Char.ofNat 34

/-- The opening-brace character. -/
def obrace : Char := Char.ofNat 123

/-- The closing-brace character. -/
def cbrace : Char := Char.ofNat 125

/-- Modelled from the spec: `src/config-map.ts` is not under `src/`.
A `ConfigMap` holds a resource name and a flag-style properties line
(spec section 4.5 and the `config-map` tests). -/
structure ConfigMap where
  name : String
  properties : String

/-- Modelled from the spec: shell-like tokenisation of the properties
line — whitespace separates tokens, a double-quoted substring is one
token and the quotes are stripped.  `inQ` is the inside-quotes state and
`cur` the (reversed) characters of the token being read. -/
def tokenizeAux : List Char → Bool → List Char → List String
  | [], _, cur => if cur = [] then [] else [String.mk cur.reverse]
  | c :: rest, inQ, cur =>
    if c = dquote then tokenizeAux rest (!inQ) cur
    else if c = ' ' ∧ inQ = false then
      if cur = [] then tokenizeAux rest false []
      else String.mk cur.reverse :: tokenizeAux rest false []
    else tokenizeAux rest inQ (c :: cur)

/-- Modelled from the spec: the tokens of a properties line. -/
def tokenize (s : String) : List String := tokenizeAux s.data false []

/-- Modelled from the spec: group the tokens into ordered `-key value`
pairs, dropping the leading dash of each key; a token where a key is
expected that does not start with a dash is skipped. -/
def pairsOf : List String → List (String × String)
  | k :: v :: rest =>
    match k.data with
    | '-' :: kname => (String.mk kname, v) :: pairsOf rest
    | _ => pairsOf (v :: rest)
  | _ => []

/-- Environment lookup used by the placeholder interpolation. -/
def envLookup (env : List (String × String)) (nm : String) : String :=
  ((env.find? (fun p => p.1 == nm)).map Prod.snd).getD ""

/-- Modelled from the spec: interpolation of `$` + brace-delimited
environment-variable placeholders in a value against an explicit
environment snapshot.  `mode` is `none` outside a placeholder and
`some nm` (reversed name characters) inside one. -/
def substAux (env : List (String × String)) :
    List Char → Option (List Char) → List Char
  | [], _ => []
  | c :: rest, some nm =>
    if c = cbrace then
      (envLookup env (String.mk nm.reverse)).data ++ substAux env rest none
    else substAux env rest (some (c :: nm))
  | [c], none => [c]
  | c :: c2 :: rest, none =>
    if c = '$' ∧ c2 = obrace then substAux env rest (some [])
    else c :: substAux env (c2 :: rest) none
termination_by l _ => l.length

/-- Modelled from the spec: resolve environment placeholders in a value. -/
def interpolateValue (env : List (String × String)) (v : String) : String :=
  String.mk (substAux env v.data none)

/-- Serialisation of one key/value pair inside the JSON-shaped payload,
`"key": "value"` as in the `config-map` tests. -/
def pairJson (env : List (String × String)) (p : String × String) : String :=
  String.mk [dquote] ++ p.1 ++ String.mk [dquote] ++ ": " ++
    String.mk [dquote] ++ interpolateValue env p.2 ++ String.mk [dquote]

/-- Modelled from the spec: the JSON-shaped patch payload, a `data`
object holding the parsed pairs. -/
def patchPayload (env : List (String × String)) (cm : ConfigMap) : String :=
  String.mk [obrace] ++ String.mk [dquote] ++ "data" ++ String.mk [dquote] ++
    ":" ++ String.mk [obrace] ++
    String.intercalate ", " ((pairsOf (tokenize cm.properties)).map
      (pairJson env)) ++
    String.mk [cbrace] ++ String.mk [cbrace]

/-- Modelled from the spec: `ConfigMap#patchCmd` builds
`patch configmap <name> -p '<payload>'` and appends ` -n <namespace>`
only when the namespace is non-empty. -/
def ConfigMap.patchCmd (cm : ConfigMap) (env : List (String × String))
    (ns : String) : String :=
  "patch configmap " ++ cm.name ++ " -p '" ++ patchPayload env cm ++ "'" ++
    (if ns = "" then "" else " -n " ++ ns)

lemma execMajor_of_empty_version {version : String} {ds : List Char}
    (h : version = "") : execMajor (stripV version).data ≠ some ds := by
  subst h
  intro hc
  exact Option.noConfusion (hc : (none : Option (List Char)) = some ds)

/-- C7: `downloadAndExtract` called with an empty URL resolves to `null`
with no filesystem check, no download invocation and no extraction. -/
theorem c7_empty_url_noop (normalize : String → String)
    (join : String → String → String) (curlW unzipW : World → World)
    (downloadDir osType proxy : String) (w : World) :
    downloadAndExtract normalize join curlW unzipW "" downloadDir osType
      proxy w = (.resolvedNone, []) := by
  simp [downloadAndExtract]

/-- C6: for a non-empty URL, when the normalized target directory does
not exist, `downloadAndExtract` rejects with `<dir> does not exist.` and
performs only that one existence check: no directory creation, no
download-tool invocation and no extraction. -/
theorem c6_missing_dir_rejects (normalize : String → String)
    (join : String → String → String) (curlW unzipW : World → World)
    (url downloadDir osType proxy : String) (w : World)
    (hurl : url ≠ "")
    (hdir : w.exist (normalize downloadDir) = false) :
    downloadAndExtract normalize join curlW unzipW url downloadDir osType
      proxy w =
      (.rejected (normalize downloadDir ++ " does not exist."),
       [Effect.existCheck (normalize downloadDir)]) := by
  simp [downloadAndExtract, hurl, hdir]

/-- C6 witness: a concrete run into a missing directory. -/
theorem c6_missing_dir_rejects_witness :
    downloadAndExtract id (fun a b => a ++ "/" ++ b) id id "u" "d" "Linux"
      "p" ⟨fun _ => false⟩
      = (.rejected "d does not exist.", [Effect.existCheck "d"]) :=
  c6_missing_dir_rejects id (fun a b => a ++ "/" ++ b) id id "u" "d"
    "Linux" "p" ⟨fun _ => false⟩ (by decide) rfl

/-- C8: the OS bundle lookup returns none for every identifier outside
Linux / Darwin / Windows_NT, and the corresponding relative bundle path
`<os-dir>/<archive-name>` for the three recognized identifiers. -/
theorem c8_bundle_lookup (osType : String)
    (h : osType ≠ "Linux" ∧ osType ≠ "Darwin" ∧ osType ≠ "Windows_NT") :
    getOcBundleByOS osType = none ∧
    getOcBundleByOS "Linux" = some (LINUX ++ "/" ++ OC_TAR_GZ) ∧
    getOcBundleByOS "Darwin" = some (MACOSX ++ "/" ++ OC_TAR_GZ) ∧
    getOcBundleByOS "Windows_NT" = some (WIN ++ "/" ++ OC_ZIP) := by
  refine ⟨?_, rfl, rfl, rfl⟩
  unfold getOcBundleByOS
  split <;> simp_all

/-- C8 witness: the unrecognized identifier of the repository's test. -/
theorem c8_bundle_lookup_witness :
    getOcBundleByOS "fakeOS" = none ∧
    getOcBundleByOS "Linux" = some (LINUX ++ "/" ++ OC_TAR_GZ) ∧
    getOcBundleByOS "Darwin" = some (MACOSX ++ "/" ++ OC_TAR_GZ) ∧
    getOcBundleByOS "Windows_NT" = some (WIN ++ "/" ++ OC_ZIP) :=
  c8_bundle_lookup "fakeOS" (by decide)

/-- C1: with `wantLatestPatch` unset, a version whose extracted major is
3 (resp. 4) and a recognized OS yield the version-3 (resp. version-4)
base URL, a slash, the version with any leading `v` stripped, a slash,
and the OS bundle path. -/
theorem c1_url_for_major_3_or_4 (utils : OcUtils) (version osType : String)
    (ds : List Char) (b : String)
    (hmaj : execMajor (stripV version).data = some ds)
    (h34 : digitsToNat ds = 3 ∨ digitsToNat ds = 4)
    (hos : getOcBundleByOS osType = some b) :
    ocBundleURL utils version osType false =
      some ((if digitsToNat ds = 3 then utils.openshiftV3BaseUrl
             else utils.openshiftV4BaseUrl) ++ "/" ++ stripV version ++
        "/" ++ b) := by
  have hv : version ≠ "" := fun h => execMajor_of_empty_version h hmaj
  rcases h34 with h3 | h4
  · simp [ocBundleURL, hv, hmaj, h3, hos]
  · have h3 : digitsToNat ds ≠ 3 := by rw [h4]; decide
    simp [ocBundleURL, hv, hmaj, h3, h4, hos]

/-- C1 witness: the two spec examples, `v3.11.0` and `4.11` on Linux. -/
theorem c1_url_for_major_3_or_4_witness :
    ocBundleURL ⟨"V3", "V4", []⟩ "v3.11.0" "Linux" false
      = some ("V3" ++ "/" ++ "3.11.0" ++ "/" ++ (LINUX ++ "/" ++ OC_TAR_GZ)) ∧
    ocBundleURL ⟨"V3", "V4", []⟩ "4.11" "Linux" false
      = some ("V4" ++ "/" ++ "4.11" ++ "/" ++ (LINUX ++ "/" ++ OC_TAR_GZ)) :=
  ⟨c1_url_for_major_3_or_4 ⟨"V3", "V4", []⟩ "v3.11.0" "Linux" ['3'] _
     (by decide) (Or.inl rfl) rfl,
   c1_url_for_major_3_or_4 ⟨"V3", "V4", []⟩ "4.11" "Linux" ['4'] _
     (by decide) (Or.inr rfl) rfl⟩

/-- C5: a version whose extracted major is neither 3 nor 4 resolves to
none, for either value of the latest-patch flag. -/
theorem c5_unsupported_major (utils : OcUtils) (version osType : String)
    (latest : Bool) (ds : List Char)
    (hmaj : execMajor (stripV version).data = some ds)
    (h3 : digitsToNat ds ≠ 3) (h4 : digitsToNat ds ≠ 4) :
    ocBundleURL utils version osType latest = none := by
  have hv : version ≠ "" := fun h => execMajor_of_empty_version h hmaj
  cases hres : (if latest then resolveLatestVersion utils (stripV version)
                else some (stripV version)) with
  | none => simp [ocBundleURL, hv, hmaj, hres]
  | some ver => simp [ocBundleURL, hv, hmaj, hres, h3, h4]

/-- C5 witness: the spec example `5.1.0` on Linux. -/
theorem c5_unsupported_major_witness :
    ocBundleURL ⟨"V3", "V4", []⟩ "5.1.0" "Linux" false = none :=
  c5_unsupported_major ⟨"V3", "V4", []⟩ "5.1.0" "Linux" false ['5']
    (by decide) (by decide) (by decide)

/-- C4: with `wantLatestPatch` set, resolution fails both when no
`major.minor` can be extracted from the version and when the extracted
`major.minor` line is absent from the static table. -/
theorem c4_latest_patch_failures (utils : OcUtils) (version osType : String)
    (h : execMajorMinor (stripV version).data = none ∨
         ∃ a b, execMajorMinor (stripV version).data = some (a, b) ∧
           utils.lookup ("oc" ++ (String.mk a ++ "." ++ String.mk b)) = none) :
    ocBundleURL utils version osType true = none := by
  by_cases hv : version = ""
  · simp [ocBundleURL, hv]
  · cases hmaj : execMajor (stripV version).data with
    | none => simp [ocBundleURL, hv, hmaj]
    | some ds =>
      have hres : resolveLatestVersion utils (stripV version) = none := by
        rcases h with h1 | ⟨a, b, h2, h3⟩
        · simp [resolveLatestVersion, h1]
        · simp [resolveLatestVersion, h2, h3]
      simp [ocBundleURL, hv, hmaj, hres]

/-- C4 witness: the spec example `3` (no `major.minor`), and `3.17`
against an empty table (unknown line). -/
theorem c4_latest_patch_failures_witness :
    ocBundleURL ⟨"V3", "V4", []⟩ "3" "Linux" true = none ∧
    ocBundleURL ⟨"V3", "V4", []⟩ "3.17" "Linux" true = none :=
  ⟨c4_latest_patch_failures ⟨"V3", "V4", []⟩ "3" "Linux" (Or.inl (by decide)),
   c4_latest_patch_failures ⟨"V3", "V4", []⟩ "3.17" "Linux"
     (Or.inr ⟨['3'], ['1', '7'], by decide, by decide⟩)⟩

lemma resolveLatestVersion_some {utils : OcUtils} {v w : String}
    (h : resolveLatestVersion utils v = some w) :
    ∃ a b, execMajorMinor v.data = some (a, b) ∧
      utils.lookup ("oc" ++ (String.mk a ++ "." ++ String.mk b)) = some w := by
  unfold resolveLatestVersion at h
  split at h
  · simp at h
  · rename_i a b heq
    split at h
    · simp at h
    · rename_i w' hl
      split at h
      · simp at h
      · exact ⟨a, b, heq, hl.trans (congrArg some (Option.some_inj.mp h))⟩

/-- C10: whenever latest-patch resolution succeeds, the base-URL family
of the result is selected by the major extracted from the caller's
version string, and the path's middle segment is the table's value `w`,
whatever `w`'s own major may be. -/
theorem c10_base_family_from_request (utils : OcUtils)
    (version osType url : String)
    (h : ocBundleURL utils version osType true = some url) :
    ∃ ds a b w bundle,
      execMajor (stripV version).data = some ds ∧
      execMajorMinor (stripV version).data = some (a, b) ∧
      utils.lookup ("oc" ++ (String.mk a ++ "." ++ String.mk b)) = some w ∧
      (digitsToNat ds = 3 ∨ digitsToNat ds = 4) ∧
      getOcBundleByOS osType = some bundle ∧
      url = (if digitsToNat ds = 3 then utils.openshiftV3BaseUrl
             else utils.openshiftV4BaseUrl) ++ "/" ++ w ++ "/" ++ bundle := by
  by_cases hv : version = ""
  · rw [hv] at h; simp [ocBundleURL] at h
  · cases hmaj : execMajor (stripV version).data with
    | none => simp [ocBundleURL, hv, hmaj] at h
    | some ds =>
      cases hres : resolveLatestVersion utils (stripV version) with
      | none => simp [ocBundleURL, hv, hmaj, hres] at h
      | some w =>
        obtain ⟨a, b, hab, hl⟩ := resolveLatestVersion_some hres
        by_cases h3 : digitsToNat ds = 3
        · cases hos : getOcBundleByOS osType with
          | none => simp [ocBundleURL, hv, hmaj, hres, h3, hos] at h
          | some bundle =>
            simp [ocBundleURL, hv, hmaj, hres, h3, hos] at h
            exact ⟨ds, a, b, w, bundle, rfl, hab, hl, Or.inl h3, rfl,
              by simp [h3, ← h]⟩
        · by_cases h4 : digitsToNat ds = 4
          · cases hos : getOcBundleByOS osType with
            | none => simp [ocBundleURL, hv, hmaj, hres, h3, h4, hos] at h
            | some bundle =>
              simp [ocBundleURL, hv, hmaj, hres, h3, h4, hos] at h
              exact ⟨ds, a, b, w, bundle, rfl, hab, hl, Or.inr h4, rfl,
                by simp [h3, ← h]⟩
          · simp [ocBundleURL, hv, hmaj, hres, h3, h4] at h

/-- C10 witness: requested line `3.11` mapped by the table to `4.2.7`;
the base family stays that of the requested major 3 even though the
substituted version's major is 4. -/
theorem c10_base_family_from_request_witness :
    ∃ ds a b w bundle,
      execMajor (stripV "3.11.0").data = some ds ∧
      execMajorMinor (stripV "3.11.0").data = some (a, b) ∧
      OcUtils.lookup ⟨"V3", "V4", [("oc3.11", "4.2.7")]⟩
        ("oc" ++ (String.mk a ++ "." ++ String.mk b)) = some w ∧
      (digitsToNat ds = 3 ∨ digitsToNat ds = 4) ∧
      getOcBundleByOS "Linux" = some bundle ∧
      "V3/4.2.7/linux/oc.tar.gz" =
        (if digitsToNat ds = 3 then "V3" else "V4") ++ "/" ++ w ++ "/" ++
          bundle :=
  c10_base_family_from_request ⟨"V3", "V4", [("oc3.11", "4.2.7")]⟩
    "3.11.0" "Linux" "V3/4.2.7/linux/oc.tar.gz" (by decide)

/-- C2 counterexample: on a successful `Windows_NT` run (every path
exists), the trace does contain the `fs.chmodSync(_, '0755')` call, so
the claim that no permission change is performed for the Windows_NT
identifier is false. -/
theorem c2_windows_chmod_counterexample :
    Effect.chmod "d/oc.exe" "0755" ∈
      (downloadAndExtract id (fun a b => a ++ "/" ++ b) id id
        "http://h/oc.zip" "d" "Windows_NT" "" ⟨fun _ => true⟩).2 := by
  decide

/-- C2 as amended: after a run in which the URL is non-empty, the
normalized target directory exists, and the expected executable
(`oc.exe` for Windows_NT, `oc` otherwise) exists after extraction,
`downloadAndExtract` resolves to that executable's path inside the
target directory and the trace contains the 0755 permission change on
it — for every OS identifier, Windows_NT included. -/
theorem c2_chmod_on_success (normalize : String → String)
    (join : String → String → String) (curlW unzipW : World → World)
    (url downloadDir osType proxy : String) (w : World)
    (hurl : url ≠ "")
    (hdir : w.exist (normalize downloadDir) = true)
    (hbin : (unzipW (if w.exist (join (normalize downloadDir)
          (String.mk ((splitOnSlash url.data).getLastD []))) then w
        else curlW w)).exist
        (join (normalize downloadDir)
          (if osType = "Windows_NT" then "oc.exe" else "oc")) = true) :
    (downloadAndExtract normalize join curlW unzipW url downloadDir
        osType proxy w).1 =
      .resolvedPath (join (normalize downloadDir)
        (if osType = "Windows_NT" then "oc.exe" else "oc")) ∧
    Effect.chmod (join (normalize downloadDir)
        (if osType = "Windows_NT" then "oc.exe" else "oc")) "0755" ∈
      (downloadAndExtract normalize join curlW unzipW url downloadDir
        osType proxy w).2 := by
  by_cases ha : w.exist (join (normalize downloadDir)
      (String.mk ((splitOnSlash url.data).getLastD []))) = true
  · have hbw : (unzipW w).exist (join (normalize downloadDir)
        (if osType = "Windows_NT" then "oc.exe" else "oc")) = true := by
      rw [ha] at hbin
      simpa using hbin
    constructor <;>
      simp [downloadAndExtract, hurl, hdir, ha, hbw,
        -List.getLastD_eq_getLast?]
  · have ha' := eq_false_of_ne_true ha
    have hbw : (unzipW (curlW w)).exist (join (normalize downloadDir)
        (if osType = "Windows_NT" then "oc.exe" else "oc")) = true := by
      rw [ha'] at hbin
      simpa using hbin
    constructor <;>
      simp [downloadAndExtract, hurl, hdir, ha', hbw,
        -List.getLastD_eq_getLast?]

/-- C2 amended-claim witness: a successful Linux run; the returned path
is chmod-ed to 0755. -/
theorem c2_chmod_on_success_witness :
    (downloadAndExtract id (fun a b => a ++ "/" ++ b) id id
        "http://h/oc.tar.gz" "d" "Linux" "" ⟨fun _ => true⟩).1 =
      .resolvedPath ((fun a b => a ++ "/" ++ b) (id "d")
        (if "Linux" = "Windows_NT" then "oc.exe" else "oc")) ∧
    Effect.chmod ((fun a b => a ++ "/" ++ b) (id "d")
        (if "Linux" = "Windows_NT" then "oc.exe" else "oc")) "0755" ∈
      (downloadAndExtract id (fun a b => a ++ "/" ++ b) id id
        "http://h/oc.tar.gz" "d" "Linux" "" ⟨fun _ => true⟩).2 :=
  c2_chmod_on_success id (fun a b => a ++ "/" ++ b) id id
    "http://h/oc.tar.gz" "d" "Linux" "" ⟨fun _ => true⟩ (by decide) rfl rfl

/-- C9: a `ConfigMap` named `foo` with an empty properties line and an
empty namespace yields exactly `patch configmap foo -p '{"data":{}}'`
(braces written escaped), and in general zero parsed key/value pairs
yield the empty-data payload. -/
theorem c9_empty_properties_patch :
    (ConfigMap.mk "foo" "").patchCmd [] "" =
      "patch configmap foo -p '\x7b\"data\":\x7b\x7d\x7d'" ∧
    ∀ (cm : ConfigMap) (env : List (String × String)),
      pairsOf (tokenize cm.properties) = [] →
      patchPayload env cm = "\x7b\"data\":\x7b\x7d\x7d" := by
  refine ⟨rfl, ?_⟩
  intro cm env h
  unfold patchPayload
  rw [h]
  rfl

/-- C9 witness: a properties line that parses to zero pairs. -/
theorem c9_empty_properties_patch_witness :
    patchPayload [] (ConfigMap.mk "bar" "x") = "\x7b\"data\":\x7b\x7d\x7d" :=
  c9_empty_properties_patch.2 (ConfigMap.mk "bar" "x") [] (by decide)

/-- C3: when the non-empty supplied version is not a web URI and the
candidate URL built with the latest flag unset exists, `installOc`
issues exactly one HTTP HEAD probe, against that candidate, and the URL
handed to `downloadAndExtract` (at most one) is the candidate when the
probe is OK, and otherwise the single fallback URL built with the
latest flag set; no further fallback or retry ever happens. -/
theorem c3_one_probe_one_fallback (utils : OcUtils)
    (isWebUri probe : String → Bool) (localOc : Option String)
    (envWorkDir : String) (dde : Bool) (dl : String → DlRes)
    (dv osType cand : String)
    (hv : dv ≠ "") (hweb : isWebUri dv = false)
    (hcand : ocBundleURL utils dv osType false = some cand) :
    countProbes (installOc utils isWebUri probe localOc envWorkDir dde dl
      dv osType false).2 = 1 ∧
    Effect.headProbe cand ∈ (installOc utils isWebUri probe localOc
      envWorkDir dde dl dv osType false).2 ∧
    downloadUrls (installOc utils isWebUri probe localOc envWorkDir dde dl
      dv osType false).2 =
      (if probe cand then some cand
       else ocBundleURL utils dv osType true).toList := by
  have hbody : installOc utils isWebUri probe localOc envWorkDir dde dl dv
      osType false =
      installFinish (envWorkDir ++ "/.download") dl
        (if probe cand then some cand else ocBundleURL utils dv osType true)
        ((Effect.existCheck (envWorkDir ++ "/.download") ::
          (if dde then [] else [Effect.mkdir (envWorkDir ++ "/.download")])) ++
         [Effect.headProbe cand]) := by
    simp [installOc, hv, hweb, hcand]
  rw [hbody]
  cases hfb : (if probe cand then some cand
               else ocBundleURL utils dv osType true) with
  | none =>
    cases dde <;>
      simp [installFinish, countProbes, downloadUrls, isProbe, urlOfCall,
        List.countP_cons, List.countP_append]
  | some u =>
    cases hdl : dl u <;> cases dde <;>
      simp [installFinish, countProbes, downloadUrls, isProbe, urlOfCall,
        hdl, List.countP_cons, List.countP_append]

/-- C3 witness: a concrete run where the probe fails and the fallback
lookup also fails, so exactly one probe and no download call occur. -/
theorem c3_one_probe_one_fallback_witness :
    countProbes (installOc ⟨"V3", "V4", []⟩ (fun _ => false)
      (fun _ => false) none "W" true (fun _ => DlRes.resolvedPath "P")
      "3.11.0" "Linux" false).2 = 1 ∧
    Effect.headProbe "V3/3.11.0/linux/oc.tar.gz" ∈
      (installOc ⟨"V3", "V4", []⟩ (fun _ => false) (fun _ => false) none
        "W" true (fun _ => DlRes.resolvedPath "P") "3.11.0" "Linux"
        false).2 ∧
    downloadUrls (installOc ⟨"V3", "V4", []⟩ (fun _ => false)
      (fun _ => false) none "W" true (fun _ => DlRes.resolvedPath "P")
      "3.11.0" "Linux" false).2 = [] :=
  c3_one_probe_one_fallback ⟨"V3", "V4", []⟩ (fun _ => false)
    (fun _ => false) none "W" true (fun _ => DlRes.resolvedPath "P")
    "3.11.0" "Linux" "V3/3.11.0/linux/oc.tar.gz" (by decide) rfl
    (by decide)

end OcVsts
